import Mathlib

/-!
Shallow embedding of the kantra provider-orchestration core
(`cmd/analyze-bin.go` and the containerized `analyze` command file),
together with proofs checking the natural-language specification
against it.

Conventions of the embedding:
* machine state touched through the OS (the file system, `filepath.Abs`)
  is passed in explicitly as function parameters (`isDir`, `absPath`,
  a partial map `String → Option String` for file contents);
* fallible Go calls are modelled with `Option` / `Except`;
* Go maps that are only iterated are modelled as association lists in
  iteration order, so that claims quantifying over iteration order can
  be stated;
* provider-specific configuration (`map[string]interface{}` in Go) is an
  opaque value that the code under study only copies, so it is modelled
  as `Option String` (`none` = no provider-specific configuration).
-/

/-- One `provider.InitConfig` as consulted by the merging logic of
`setConfigsContainerless`: the location plus the (opaque)
provider-specific configuration.  Fields the merger never reads
(analysis mode, proxy, context lines) are omitted. -/
structure InitConfig where
  location : String
  providerSpecificConfig : Option String
deriving DecidableEq

/-- One `provider.Config` as consulted by `setConfigsContainerless`:
its name and its `InitConfig` list. -/
structure Config where
  name : String
  initConfig : List InitConfig
deriving DecidableEq

/-- Inner loop of `setConfigsContainerless` (analyze-bin.go:384-401):
for one provider config named `cfgName`, walk its `InitConfig` entries
and grow the `(seenBuiltinConfigs, defaultBuiltinConfigs)` accumulator.
The Go code looks an entry up in `seenBuiltinConfigs` under its raw
`initConf.Location`, but records it under the normalized
`builtinLocation` (`filepath.Abs`, falling back to the raw string when
`Abs` fails, modelled by `absPath : String → Option String`).
Locations that are empty or not an existing directory (`isDir`) are
skipped.  The provider-specific configuration is kept only when the
entry comes from the config named "builtin". -/
def addBuiltinConfigs (isDir : String → Bool) (absPath : String → Option String) :
    String → List String × List InitConfig → List InitConfig → List String × List InitConfig
  | _, acc, [] => acc
  | cfgName, acc, ic :: rest =>
    let acc2 :=
      if acc.1.contains ic.location then acc
      else if ic.location = "" then acc
      else if isDir ic.location then
        let builtinLocation := (absPath ic.location).getD ic.location
        (builtinLocation :: acc.1,
          acc.2 ++ [⟨builtinLocation,
            if cfgName = "builtin" then ic.providerSpecificConfig else none⟩])
      else acc
    addBuiltinConfigs isDir absPath cfgName acc2 rest

/-- Outer loop of `setConfigsContainerless` (analyze-bin.go:380-407):
non-"builtin" configs pass through to `finalConfigs`; every config also
feeds the builtin accumulator; at the end a single "builtin" config is
appended carrying the accumulated `defaultBuiltinConfigs`. -/
def setConfigsAux (isDir : String → Bool) (absPath : String → Option String) :
    List String → List InitConfig → List Config → List Config → List Config
  | _, defaults, fin, [] => fin ++ [⟨"builtin", defaults⟩]
  | seen, defaults, fin, cfg :: rest =>
    let fin2 := if cfg.name = "builtin" then fin else fin ++ [cfg]
    let acc := addBuiltinConfigs isDir absPath cfg.name (seen, defaults) cfg.initConfig
    setConfigsAux isDir absPath acc.1 acc.2 fin2 rest

/-- `analyzeCommand.setConfigsContainerless` (analyze-bin.go:375-410),
with the OS calls (`os.Stat(...).IsDir()`, `filepath.Abs`) passed in
explicitly. -/
def setConfigsContainerless (isDir : String → Bool) (absPath : String → Option String)
    (configs : List Config) : List Config :=
  setConfigsAux isDir absPath [] [] [] configs

/-- Modelled from the spec: the reserved technology label keys
(`outputv1.TargetTechnologyLabel` / `outputv1.SourceTechnologyLabel`
come from the external analyzer library, not from this repository); the
spec abbreviates them as `target` and `source` throughout §4.2/§8. -/
def targetTechnologyLabel : String := "target"

/-- Modelled from the spec: see `targetTechnologyLabel`. -/
def sourceTechnologyLabel : String := "source"

/-- `analyzeCommand.getLabelSelector` (analyze command file:591-634):
synthesize the label-selector string from the `--source` and `--target`
flag values. -/
def getLabelSelector (sources targets : List String) : String :=
  if sources.isEmpty && targets.isEmpty then ""
  else
    let defaultLabels := ["discovery"]
    let targetsL := targets.map (fun t => targetTechnologyLabel ++ "=" ++ t)
    let sourcesL := sources.map (fun s => sourceTechnologyLabel ++ "=" ++ s)
    let targetExpr :=
      if targetsL.isEmpty then "" else "(" ++ String.intercalate " || " targetsL ++ ")"
    let sourceExpr :=
      if sourcesL.isEmpty then "" else "(" ++ String.intercalate " || " sourcesL ++ ")"
    if targetExpr ≠ "" then
      if sourceExpr ≠ "" then
        "(" ++ targetExpr ++ " && " ++ sourceExpr ++ ") || ("
          ++ String.intercalate " || " defaultLabels ++ ")"
      else
        "(" ++ targetExpr ++ " && " ++ sourceTechnologyLabel ++ ") || ("
          ++ String.intercalate " || " defaultLabels ++ ")"
    else if sourceExpr ≠ "" then
      sourceExpr ++ " || (" ++ String.intercalate " || " defaultLabels ++ ")"
    else ""

/-- One `konveyor.DepsFlatItem` as produced by
`DependencyOutputContainerless`; a dependency descriptor is opaque and
modelled as a `String`. -/
structure DepsFlatItem where
  provider : String
  fileURI : String
  dependencies : List String
deriving DecidableEq

/-- Stable insertion of `x` into `l` under the strict comparator `r`:
`x` is placed before the first element `y` with `r x y`, hence after
every earlier element it compares equal to — matching Go's
`sort.SliceStable` contract for the lists this file sorts. -/
def insertIn (r : α → α → Prop) [DecidableRel r] (x : α) : List α → List α
  | [] => [x]
  | y :: ys => if r x y then x :: y :: ys else y :: insertIn r x ys

/-- Tail of the stable sort: insert the pending elements one by one
into the accumulator (which holds the already-processed prefix). -/
def sortStableAux (r : α → α → Prop) [DecidableRel r] : List α → List α → List α
  | acc, [] => acc
  | acc, x :: xs => sortStableAux r (insertIn r x acc) xs

/-- Stable sort by the strict comparator `r`, modelling
`sort.SliceStable`. -/
def sortStable (r : α → α → Prop) [DecidableRel r] (xs : List α) : List α :=
  sortStableAux r [] xs

/-- Go's `<` on strings: lexicographic comparison of the character
sequences (modelled on `String.data`, using the lexicographic order on
`List Char`). -/
def strLt (a b : String) : Prop := a.data < b.data

instance : DecidableRel strLt := fun a b =>
  inferInstanceAs (Decidable (a.data < b.data))

/-- The comparator passed to `sort.SliceStable` in
`DependencyOutputContainerless` (analyze-bin.go:509-515): compare
`FileURI` when the `Provider` fields are equal, else compare
`Provider`. -/
def depLt (a b : DepsFlatItem) : Prop :=
  if a.provider = b.provider then strLt a.fileURI b.fileURI
  else strLt a.provider b.provider

instance : DecidableRel depLt := fun a b =>
  inferInstanceAs (Decidable (if a.provider = b.provider then
    strLt a.fileURI b.fileURI else strLt a.provider b.provider))

/-- Provider loop of `DependencyOutputContainerless`
(analyze-bin.go:487-505).  Each provider is an association-list entry
`(name, result)` in map-iteration order; `result = none` models a
failed `GetDependencies` call (logged and contributing nothing), and
`some deps` the returned location → dependency-list map in iteration
order.  Each returned location becomes a `DepsFlatItem` whose
`Provider` field is the literal "java" (analyze-bin.go:497).  After
each provider the Go code returns early when `depsFlat` (and the never
assigned `depsTree`) is still nil, i.e. when nothing has been collected
yet; `none` models that early return (no file is written). -/
def depCollect :
    List (String × Option (List (String × List String))) → List DepsFlatItem →
      Option (List DepsFlatItem)
  | [], acc => some acc
  | (_, res) :: rest, acc =>
    let acc2 := acc ++ (res.getD []).map (fun e => ⟨"java", e.1, e.2⟩)
    if acc2 = [] then none else depCollect rest acc2

/-- `analyzeCommand.DependencyOutputContainerless`
(analyze-bin.go:481-529): collect, then stable-sort by
`(Provider, FileURI)` and write the file.  `some items` models a
written `dependencies.yaml` with the given content, `none` the early
return with no file written (yaml marshalling and the file write are
modelled as succeeding). -/
def DependencyOutputContainerless
    (provs : List (String × Option (List (String × List String)))) :
    Option (List DepsFlatItem) :=
  (depCollect provs []).map (fun l => sortStable depLt l)

/-- The flattened sequence the collector builds before sorting: every
successful provider's `(location, dependency list)` pairs, in
iteration order, each tagged with the literal provider string
"java". -/
def flattenDeps (provs : List (String × Option (List (String × List String)))) :
    List DepsFlatItem :=
  (provs.map (fun p => (p.2.getD []).map
    (fun e => (⟨"java", e.1, e.2⟩ : DepsFlatItem)))).flatten

/-- Outcome of `startProvidersContainerless`: `fatal` models the
`os.Exit(1)` on a non-fallback init failure, `err e` the error returned
to the caller when the builtin provider's init fails, `ok acc` success
(carrying the additional builtin configs gathered from the other
providers). -/
inductive StartResult where
  | fatal : StartResult
  | err : String → StartResult
  | ok : List InitConfig → StartResult
deriving DecidableEq

/-- Non-fallback pass of `startProvidersContainerless`
(analyze-bin.go:451-471): iterate the `needProviders` entries in
map-iteration order, skip the one named "builtin", call each other
provider's `ProviderInit` with `nil`; on error the Go code calls
`os.Exit(1)` (modelled by `none`), on success the returned additional
builtin configs are appended to the accumulator. -/
def initNonFallbackAux :
    List InitConfig → List (String × (List InitConfig → Except String (List InitConfig))) →
      Option (List InitConfig)
  | acc, [] => some acc
  | acc, (name, pInit) :: rest =>
    if name = "builtin" then initNonFallbackAux acc rest
    else
      match pInit [] with
      | Except.error _ => none
      | Except.ok extra => initNonFallbackAux (acc ++ extra) rest

/-- `analyzeCommand.startProvidersContainerless`
(analyze-bin.go:448-479): init all non-fallback providers first (fatal
exit on any failure), then init the "builtin" provider, if required,
with the accumulated additional configs, returning its error to the
caller instead of exiting. -/
def startProvidersContainerless
    (needProviders : List (String × (List InitConfig → Except String (List InitConfig)))) :
    StartResult :=
  match initNonFallbackAux [] needProviders with
  | none => StartResult.fatal
  | some acc =>
    match List.lookup "builtin" needProviders with
    | none => StartResult.ok acc
    | some builtinInit =>
      match builtinInit acc with
      | Except.error e => StartResult.err e
      | Except.ok _ => StartResult.ok acc

/-- One `konveyor.RuleSet` result as consulted by the serialization
code: its name and (opaque) violations. -/
structure RulesetResult where
  name : String
  violations : List String
deriving DecidableEq

/-- The comparator passed to `sort.SliceStable` for rulesets
(analyze-bin.go:165-167): compare by `Name`. -/
def rulesetLt (a b : RulesetResult) : Prop := strLt a.name b.name

instance : DecidableRel rulesetLt := fun a b =>
  inferInstanceAs (Decidable (strLt a.name b.name))

/-- Modelled from the spec: the external constant
`provider.FullAnalysisMode` ("full" in the spec's mode enum). -/
def fullAnalysisMode : String := "full"

/-- Modelled from the spec: the external constant
`provider.SourceOnlyAnalysisMode` ("source-only" in the spec's mode
enum). -/
def sourceOnlyAnalysisMode : String := "source-only"

/-- Observable outcome of the artifact-producing part of
`RunAnalysisContainerless`: whether the dependency goroutine was
spawned, the content of `dependencies.yaml` if it was written, and the
content of `output.yaml` (always written on the success path). -/
structure RunOutcome where
  depTaskStarted : Bool
  depsFile : Option (List DepsFlatItem)
  outputFile : Option (List RulesetResult)

/-- The concurrency-and-artifact skeleton of
`analyzeCommand.RunAnalysisContainerless` (analyze-bin.go:139-179):
the dependency goroutine is spawned only when the mode is
`FullAnalysisMode`; `output.yaml` is written with the rule-engine
results stable-sorted by ruleset name.  The external collaborators
(rule engine, providers) are passed in as parameters. -/
def RunAnalysisContainerless (mode : String)
    (provs : List (String × Option (List (String × List String))))
    (rulesets : List RulesetResult) : RunOutcome :=
  let started := mode == fullAnalysisMode
  ⟨started,
    if started then DependencyOutputContainerless provs else none,
    some (sortStable rulesetLt rulesets)⟩

/-- `copyFileContents` (analyze command file:414-430).  The file system
is a partial map from path to contents (`none` = the file does not
exist / cannot be opened); `createFails dst` models an `os.Create`
failure.  Returns the Go function's error result and the file system
after the call.  Note the source: when `os.Open(src)` fails the Go code
returns `nil` — the error is swallowed and `dst` is never created. -/
def copyFileContents (fs : String → Option String) (createFails : String → Bool)
    (src dst : String) : Option String × (String → Option String) :=
  match fs src with
  | none => (none, fs)
  | some content =>
    if createFails dst then (some ("failed to create " ++ dst), fs)
    else (none, fun p => if p = dst then some content else fs p)

/-! ### Order facts for the Go string comparator -/

theorem strLt_trans {a b c : String} (h1 : strLt a b) (h2 : strLt b c) : strLt a c :=
  lt_trans h1 h2

theorem strLt_asymm {a b : String} (h : strLt a b) : ¬ strLt b a :=
  lt_asymm h

theorem strLt_shift {a b c : String} (h1 : strLt a b) (h2 : ¬ strLt c b) : ¬ strLt c a :=
  fun h3 => h2 (strLt_trans h3 h1)

theorem strLt_of_ne_of_not_gt {a b : String} (hne : a ≠ b) (h : ¬ strLt b a) : strLt a b := by
  rcases lt_trichotomy a.data b.data with h1 | h1 | h1
  · exact h1
  · exact absurd (by cases a; cases b; cases h1; rfl) hne
  · exact absurd h1 h

theorem depLt_asymm (a b : DepsFlatItem) (h : depLt a b) : ¬ depLt b a := by
  unfold depLt at h ⊢
  by_cases hab : a.provider = b.provider
  · rw [if_pos hab] at h
    rw [if_pos hab.symm]
    exact strLt_asymm h
  · rw [if_neg hab] at h
    rw [if_neg (fun hba => hab hba.symm)]
    exact strLt_asymm h

theorem depLt_shift (a b c : DepsFlatItem) (h1 : depLt a b) (h2 : ¬ depLt c b) :
    ¬ depLt c a := by
  unfold depLt at h1 h2 ⊢
  by_cases hab : a.provider = b.provider
  · rw [if_pos hab] at h1
    by_cases hcb : c.provider = b.provider
    · rw [if_pos hcb] at h2
      rw [if_pos (hcb.trans hab.symm)]
      exact strLt_shift h1 h2
    · rw [if_neg hcb] at h2
      rw [if_neg (fun hca => hcb (hca.trans hab)), hab]
      exact h2
  · rw [if_neg hab] at h1
    by_cases hcb : c.provider = b.provider
    · rw [if_neg (fun hca => hab (hca.symm.trans hcb)), hcb]
      exact strLt_asymm h1
    · rw [if_neg hcb] at h2
      by_cases hca : c.provider = a.provider
      · exfalso
        rw [hca] at h2
        exact h2 h1
      · rw [if_neg hca]
        exact strLt_shift h1 h2

theorem rulesetLt_asymm (a b : RulesetResult) (h : rulesetLt a b) : ¬ rulesetLt b a :=
  strLt_asymm h

theorem rulesetLt_shift (a b c : RulesetResult) (h1 : rulesetLt a b)
    (h2 : ¬ rulesetLt c b) : ¬ rulesetLt c a :=
  strLt_shift h1 h2

/-! ### The stable sort: permutation and sortedness -/

theorem insertIn_perm (r : α → α → Prop) [DecidableRel r] (x : α) (l : List α) :
    List.Perm (insertIn r x l) (x :: l) := by
  induction l with
  | nil => simp [insertIn]
  | cons y ys ih =>
    by_cases h : r x y
    · simp [insertIn, h]
    · simp only [insertIn, if_neg h]
      exact (ih.cons y).trans (List.Perm.swap x y ys)

theorem sortStableAux_perm (r : α → α → Prop) [DecidableRel r] :
    ∀ (xs acc : List α), List.Perm (sortStableAux r acc xs) (acc ++ xs) := by
  intro xs
  induction xs with
  | nil => intro acc; simp [sortStableAux]
  | cons x xs ih =>
    intro acc
    exact (ih (insertIn r x acc)).trans
      (((insertIn_perm r x acc).append_right xs).trans List.perm_middle.symm)

theorem sortStable_perm (r : α → α → Prop) [DecidableRel r] (xs : List α) :
    List.Perm (sortStable r xs) xs := by
  simpa using sortStableAux_perm r xs []

theorem insertIn_pairwise (r : α → α → Prop) [DecidableRel r]
    (hasym : ∀ a b : α, r a b → ¬ r b a)
    (hshift : ∀ a b c : α, r a b → ¬ r c b → ¬ r c a) (x : α) :
    ∀ l : List α, List.Pairwise (fun a b => ¬ r b a) l →
      List.Pairwise (fun a b => ¬ r b a) (insertIn r x l) := by
  intro l
  induction l with
  | nil => intro _; simp [insertIn]
  | cons y ys ih =>
    intro h
    rw [List.pairwise_cons] at h
    obtain ⟨hy, hys⟩ := h
    by_cases hr : r x y
    · simp only [insertIn, if_pos hr]
      refine List.pairwise_cons.mpr ⟨?_, List.pairwise_cons.mpr ⟨hy, hys⟩⟩
      intro z hz
      rcases List.mem_cons.mp hz with rfl | hz2
      · exact hasym x z hr
      · exact hshift x y z hr (hy z hz2)
    · simp only [insertIn, if_neg hr]
      refine List.pairwise_cons.mpr ⟨?_, ih hys⟩
      intro z hz
      have hz2 : z ∈ x :: ys := (insertIn_perm r x ys).mem_iff.mp hz
      rcases List.mem_cons.mp hz2 with rfl | hz3
      · exact hr
      · exact hy z hz3

theorem sortStableAux_pairwise (r : α → α → Prop) [DecidableRel r]
    (hasym : ∀ a b : α, r a b → ¬ r b a)
    (hshift : ∀ a b c : α, r a b → ¬ r c b → ¬ r c a) :
    ∀ (xs acc : List α), List.Pairwise (fun a b => ¬ r b a) acc →
      List.Pairwise (fun a b => ¬ r b a) (sortStableAux r acc xs) := by
  intro xs
  induction xs with
  | nil => intro acc h; exact h
  | cons x xs ih =>
    intro acc h
    exact ih (insertIn r x acc) (insertIn_pairwise r hasym hshift x acc h)

theorem sortStable_pairwise (r : α → α → Prop) [DecidableRel r]
    (hasym : ∀ a b : α, r a b → ¬ r b a)
    (hshift : ∀ a b c : α, r a b → ¬ r c b → ¬ r c a) (xs : List α) :
    List.Pairwise (fun a b => ¬ r b a) (sortStable r xs) :=
  sortStableAux_pairwise r hasym hshift xs [] List.Pairwise.nil

theorem pairwise_combine {R S T : α → α → Prop} (h : ∀ a b, R a b → S a b → T a b) :
    ∀ {l : List α}, l.Pairwise R → l.Pairwise S → l.Pairwise T := by
  intro l hR
  induction hR with
  | nil => intro _; exact List.Pairwise.nil
  | @cons a l ha _ ih =>
    intro hS
    rw [List.pairwise_cons] at hS
    exact List.Pairwise.cons (fun z hz => h a z (ha z hz) (hS.1 z hz)) (ih hS.2)

/-! ### Structural lemmas about the config merger -/

theorem addBuiltinConfigs_nonbuiltin (isDir : String → Bool)
    (absPath : String → Option String) {cfgName : String} (hn : cfgName ≠ "builtin") :
    ∀ (inits : List InitConfig) (seen : List String) (defaults : List InitConfig),
      ∃ seen2 extra,
        addBuiltinConfigs isDir absPath cfgName (seen, defaults) inits =
          (seen2, defaults ++ extra) ∧
        ∀ e ∈ extra, e.providerSpecificConfig = none := by
  intro inits
  induction inits with
  | nil =>
    intro seen defaults
    exact ⟨seen, [], by simp [addBuiltinConfigs]⟩
  | cons ic rest ih =>
    intro seen defaults
    by_cases h1 : ic.location ∈ seen
    · have heq : addBuiltinConfigs isDir absPath cfgName (seen, defaults) (ic :: rest) =
          addBuiltinConfigs isDir absPath cfgName (seen, defaults) rest := by
        simp [addBuiltinConfigs, h1]
      rw [heq]
      exact ih seen defaults
    · by_cases h2 : ic.location = ""
      · have heq : addBuiltinConfigs isDir absPath cfgName (seen, defaults) (ic :: rest) =
            addBuiltinConfigs isDir absPath cfgName (seen, defaults) rest := by
          simp [addBuiltinConfigs, h1, h2]
        rw [heq]
        exact ih seen defaults
      · by_cases h3 : isDir ic.location = true
        · have heq : addBuiltinConfigs isDir absPath cfgName (seen, defaults) (ic :: rest) =
              addBuiltinConfigs isDir absPath cfgName
                ((absPath ic.location).getD ic.location :: seen,
                  defaults ++ [⟨(absPath ic.location).getD ic.location, none⟩]) rest := by
            simp [addBuiltinConfigs, h1, h2, h3, hn]
          rw [heq]
          obtain ⟨seen2, extra2, heq2, hex2⟩ :=
            ih ((absPath ic.location).getD ic.location :: seen)
              (defaults ++ [⟨(absPath ic.location).getD ic.location, none⟩])
          refine ⟨seen2, ⟨(absPath ic.location).getD ic.location, none⟩ :: extra2, ?_, ?_⟩
          · rw [heq2, List.append_assoc]
            rfl
          · intro e he
            rcases List.mem_cons.mp he with rfl | he2
            · rfl
            · exact hex2 e he2
        · have heq : addBuiltinConfigs isDir absPath cfgName (seen, defaults) (ic :: rest) =
              addBuiltinConfigs isDir absPath cfgName (seen, defaults) rest := by
            simp [addBuiltinConfigs, h1, h2, h3]
          rw [heq]
          exact ih seen defaults

theorem setConfigsAux_nonbuiltin (isDir : String → Bool)
    (absPath : String → Option String) :
    ∀ (rest : List Config), (∀ c ∈ rest, c.name ≠ "builtin") →
      ∀ (seen : List String) (defaults : List InitConfig) (fin : List Config),
        ∃ extra,
          setConfigsAux isDir absPath seen defaults fin rest =
            fin ++ rest ++ [⟨"builtin", defaults ++ extra⟩] ∧
          ∀ e ∈ extra, e.providerSpecificConfig = none := by
  intro rest
  induction rest with
  | nil =>
    intro _ seen defaults fin
    exact ⟨[], by simp [setConfigsAux]⟩
  | cons cfg rest ih =>
    intro hnames seen defaults fin
    have hname : cfg.name ≠ "builtin" := hnames cfg (List.mem_cons_self cfg rest)
    obtain ⟨seen2, e1, hadd, he1⟩ :=
      addBuiltinConfigs_nonbuiltin isDir absPath hname cfg.initConfig seen defaults
    have heq : setConfigsAux isDir absPath seen defaults fin (cfg :: rest) =
        setConfigsAux isDir absPath seen2 (defaults ++ e1) (fin ++ [cfg]) rest := by
      simp [setConfigsAux, hname, hadd]
    obtain ⟨extra2, hrest, hex2⟩ :=
      ih (fun c hc => hnames c (List.mem_cons_of_mem cfg hc)) seen2 (defaults ++ e1)
        (fin ++ [cfg])
    refine ⟨e1 ++ extra2, ?_, ?_⟩
    · rw [heq, hrest]
      simp
    · intro e he
      rcases List.mem_append.mp he with he2 | he2
      · exact he1 e he2
      · exact hex2 e he2

/-! ### Structural lemmas about the dependency collector -/

theorem depCollect_eq :
    ∀ (provs : List (String × Option (List (String × List String))))
      (acc out : List DepsFlatItem),
      depCollect provs acc = some out → out = acc ++ flattenDeps provs := by
  intro provs
  induction provs with
  | nil =>
    intro acc out h
    simp only [depCollect, Option.some.injEq] at h
    simp [flattenDeps, ← h]
  | cons p rest ih =>
    intro acc out h
    obtain ⟨n, res⟩ := p
    by_cases h2 : acc ++ (res.getD []).map
        (fun e => (⟨"java", e.1, e.2⟩ : DepsFlatItem)) = []
    · simp [depCollect, h2] at h
    · simp only [depCollect, if_neg h2] at h
      rw [ih _ out h]
      simp [flattenDeps]

theorem flattenDeps_provider (provs : List (String × Option (List (String × List String)))) :
    ∀ i ∈ flattenDeps provs, i.provider = "java" := by
  intro i hi
  simp only [flattenDeps, List.mem_flatten, List.mem_map] at hi
  obtain ⟨l, ⟨p, _, rfl⟩, hil⟩ := hi
  obtain ⟨e, _, rfl⟩ := List.mem_map.mp hil
  rfl

/-! ### Structural lemma about provider initialization -/

theorem initNonFallbackAux_none :
    ∀ (provs : List (String × (List InitConfig → Except String (List InitConfig))))
      (name : String) (pInit : List InitConfig → Except String (List InitConfig))
      (e : String), (name, pInit) ∈ provs → name ≠ "builtin" →
      pInit [] = Except.error e → ∀ acc, initNonFallbackAux acc provs = none := by
  intro provs
  induction provs with
  | nil =>
    intro name pInit e hmem
    exact absurd hmem (List.not_mem_nil _)
  | cons p rest ih =>
    intro name pInit e hmem hne herr acc
    obtain ⟨n, f⟩ := p
    rcases List.mem_cons.mp hmem with heq | hmem2
    · injection heq with h1 h2
      subst h1
      subst h2
      simp [initNonFallbackAux, hne, herr]
    · by_cases hn : n = "builtin"
      · simp only [initNonFallbackAux, if_pos hn]
        exact ih name pInit e hmem2 hne herr acc
      · cases hf : f [] with
        | error e2 => simp [initNonFallbackAux, hn, hf]
        | ok extra =>
          simp only [initNonFallbackAux, if_neg hn, hf]
          exact ih name pInit e hmem2 hne herr (acc ++ extra)

/-! ### Claim theorems -/

/-- C7: with both the source-technology and target-technology sets
empty, the label-selector builder returns the empty string — meaning no
filtering at all — which is distinct from the default discovery filter
`"(discovery)"`. -/
theorem getLabelSelector_empty_empty :
    getLabelSelector [] [] = "" ∧ getLabelSelector [] [] ≠ "(discovery)" := by
  decide

/-- C3 counterexample: for T = `{"cloud-readiness"}` and S = `{}` the
builder does not return the claimed string
`"(target=cloud-readiness && source) || (discovery)"` — the target
OR-group keeps its own parentheses inside the AND. -/
theorem getLabelSelector_target_only_counterexample :
    getLabelSelector [] ["cloud-readiness"] ≠
      "(target=cloud-readiness && source) || (discovery)" := by
  decide

/-- C3 amended: for T = `{"cloud-readiness"}` and S = `{}` the builder
returns exactly `"((target=cloud-readiness) && source) || (discovery)"`,
with the bare `source` term as the existence catch-all. -/
theorem getLabelSelector_target_only :
    getLabelSelector [] ["cloud-readiness"] =
      "((target=cloud-readiness) && source) || (discovery)" := by
  decide

/-- C1 (code bug, failing input): two provider configs reference the
same existing directory `/w/app` via the different relative spellings
`app` and `./app` (both normalize to `/w/app`, the directory exists),
yet the merged fallback provider ends up with two `InitConfig` entries
for that directory: the seen-map is consulted under the raw spelling but
populated under the normalized one, so the second spelling is never
recognized as seen. -/
theorem setConfigs_dedup_failing_input :
    setConfigsContainerless (fun _ => true)
      (fun s => if s = "app" ∨ s = "./app" then some ("/w/app") else some s)
      [⟨"builtin", [⟨"app", none⟩]⟩, ⟨"java", [⟨"./app", none⟩]⟩] =
      [⟨"java", [⟨"./app", none⟩]⟩,
        ⟨"builtin", [⟨"/w/app", none⟩, ⟨"/w/app", none⟩]⟩] ∧
    (fun s => if s = "app" ∨ s = "./app" then some ("/w/app") else some s) "app" =
      some ("/w/app") ∧
    (fun s => if s = "app" ∨ s = "./app" then some ("/w/app") else some s) "./app" =
      some ("/w/app") := by
  decide

/-- C2 (code bug, failing input): with providers queried in the order
[p2 (fetch fails), p1 (succeeds with location `file:///A`)] the
collector hits the early return after p2 — nothing collected yet — and
gives up without querying p1, writing no output at all; with the
opposite query order it writes exactly p1's item.  The outcome is not
independent of the query order and a successful provider's items are
lost. -/
theorem depOutput_order_failing_input :
    DependencyOutputContainerless
      [("p2", none), ("p1", some [("file:///A", ["depA"])])] = none ∧
    DependencyOutputContainerless
      [("p1", some [("file:///A", ["depA"])]), ("p2", none)] =
      some [⟨"java", "file:///A", ["depA"]⟩] := by
  decide

/-- C8 counterexample: a dependency item produced by the provider named
`builtin` is attributed to `java` — the attribution is a hardcoded
literal, not the name of the provider that produced the item. -/
theorem depOutput_attribution_counterexample :
    DependencyOutputContainerless [("builtin", some [("file:///B", ["x"])])] =
      some [⟨"java", "file:///B", ["x"]⟩] ∧ ("java" : String) ≠ "builtin" := by
  decide

/-- C8 amended: whenever the collector writes output, every emitted
item carries the fixed attribution "java" (regardless of which
provider produced it), and the output is a permutation of the flattened
per-provider results — each item is exactly one location's full
dependency list from one provider, neither split nor merged. -/
theorem depOutput_attribution_amended
    (provs : List (String × Option (List (String × List String))))
    (out : List DepsFlatItem) (h : DependencyOutputContainerless provs = some out) :
    (∀ i ∈ out, i.provider = "java") ∧ List.Perm out (flattenDeps provs) := by
  unfold DependencyOutputContainerless at h
  obtain ⟨base, hbase, hsort⟩ := Option.map_eq_some'.mp h
  have hbase2 : base = flattenDeps provs := by
    simpa using depCollect_eq provs [] base hbase
  subst hbase2
  constructor
  · intro i hi
    rw [← hsort] at hi
    exact flattenDeps_provider provs i
      ((sortStable_perm depLt (flattenDeps provs)).mem_iff.mp hi)
  · rw [← hsort]
    exact sortStable_perm depLt (flattenDeps provs)

/-- C8 witness: the amended statement evaluated on one provider with
one location. -/
theorem depOutput_attribution_amended_witness :
    (∀ i ∈ [(⟨"java", "file:///A", ["d1"]⟩ : DepsFlatItem)], i.provider = "java") ∧
    List.Perm [(⟨"java", "file:///A", ["d1"]⟩ : DepsFlatItem)]
      (flattenDeps [("java", some [("file:///A", ["d1"])])]) :=
  depOutput_attribution_amended [("java", some [("file:///A", ["d1"])])]
    [⟨"java", "file:///A", ["d1"]⟩] (by decide)

/-- C5 counterexample: a non-fallback config referencing `/a` precedes
the fallback config in the input, so although the original fallback
config explicitly configured `/a` with provider-specific configuration
`some "B"`, the merged fallback's entry for `/a` carries none — the
claimed order-independence fails. -/
theorem setConfigs_psc_counterexample :
    setConfigsContainerless (fun _ => true) (fun s => some s)
      [⟨"java", [⟨"/a", some ("J")⟩]⟩, ⟨"builtin", [⟨"/a", some ("B")⟩]⟩] =
      [⟨"java", [⟨"/a", some ("J")⟩]⟩, ⟨"builtin", [⟨"/a", none⟩]⟩] ∧
    (none : Option String) ≠ some ("B") := by
  decide

/-- C5 amended: when the fallback ("builtin") config comes first in the
input (as at the actual call site) and configures a single nonempty
existing-directory location, the merged fallback keeps that location's
provider-specific configuration at the head of its list, and every
further entry — contributed by the non-fallback configs — carries no
provider-specific configuration. -/
theorem setConfigs_psc_amended (isDir : String → Bool)
    (absPath : String → Option String) (l : String) (psc : Option String)
    (rest : List Config) (hrest : ∀ c ∈ rest, c.name ≠ "builtin")
    (hl : l ≠ "") (hd : isDir l = true) :
    ∃ extra,
      setConfigsContainerless isDir absPath (⟨"builtin", [⟨l, psc⟩]⟩ :: rest) =
        rest ++ [⟨"builtin", ⟨(absPath l).getD l, psc⟩ :: extra⟩] ∧
      ∀ e ∈ extra, e.providerSpecificConfig = none := by
  have h1 : setConfigsContainerless isDir absPath (⟨"builtin", [⟨l, psc⟩]⟩ :: rest) =
      setConfigsAux isDir absPath [(absPath l).getD l]
        [⟨(absPath l).getD l, psc⟩] [] rest := by
    simp [setConfigsContainerless, setConfigsAux, addBuiltinConfigs, hl, hd]
  obtain ⟨extra, h2, h3⟩ := setConfigsAux_nonbuiltin isDir absPath rest hrest
    [(absPath l).getD l] [⟨(absPath l).getD l, psc⟩] []
  refine ⟨extra, ?_, h3⟩
  rw [h1, h2]
  simp

/-- C5 witness: the amended statement evaluated with the fallback
config first (location `/a`, provider-specific configuration kept) and
one java config after it. -/
theorem setConfigs_psc_amended_witness :
    (∀ c ∈ [(⟨"java", [⟨"/a", some ("J")⟩]⟩ : Config)], c.name ≠ "builtin") ∧
    ("/a" : String) ≠ "" ∧
    (fun _ => true) "/a" = true ∧
    ∃ extra,
      setConfigsContainerless (fun _ => true) (fun s => some s)
        (⟨"builtin", [⟨"/a", some ("B")⟩]⟩ :: [⟨"java", [⟨"/a", some ("J")⟩]⟩]) =
        [⟨"java", [⟨"/a", some ("J")⟩]⟩] ++
          [⟨"builtin", ⟨((fun s => some s) "/a").getD "/a", some ("B")⟩ :: extra⟩] ∧
      ∀ e ∈ extra, e.providerSpecificConfig = none :=
  ⟨by decide, by decide, rfl,
    setConfigs_psc_amended (fun _ => true) (fun s => some s) "/a" (some ("B"))
      [⟨"java", [⟨"/a", some ("J")⟩]⟩] (by decide) (by decide) rfl⟩

/-- C4: provider initialization failure policy.  First part: if any
provider other than the fallback fails its init, the whole run is
fatally terminated (the `os.Exit(1)` branch), whatever the iteration
order.  Second part: if all non-fallback inits succeed (accumulating
`acc`) and the fallback ("builtin") provider's init fails with `e`,
that error is returned to the caller (`StartResult.err e`) — not a
fatal exit, and not a successful result, so the run does not proceed
to evaluation. -/
theorem startProviders_failure_policy :
    (∀ (provs : List (String × (List InitConfig → Except String (List InitConfig))))
      (name : String) (pInit : List InitConfig → Except String (List InitConfig)),
      (name, pInit) ∈ provs → name ≠ "builtin" →
      (∃ e, pInit [] = Except.error e) →
      startProvidersContainerless provs = StartResult.fatal) ∧
    (∀ (provs : List (String × (List InitConfig → Except String (List InitConfig))))
      (acc : List InitConfig)
      (builtinInit : List InitConfig → Except String (List InitConfig)) (e : String),
      initNonFallbackAux [] provs = some acc →
      List.lookup ("builtin") provs = some builtinInit →
      builtinInit acc = Except.error e →
      startProvidersContainerless provs = StartResult.err e) := by
  constructor
  · intro provs name pInit hmem hne hex
    obtain ⟨e, herr⟩ := hex
    have hnone := initNonFallbackAux_none provs name pInit e hmem hne herr []
    simp [startProvidersContainerless, hnone]
  · intro provs acc builtinInit e h1 h2 h3
    simp [startProvidersContainerless, h1, h2, h3]

/-- C4 witness: a failing java provider alone is fatal; a succeeding
java provider followed by a failing builtin provider returns the
builtin error. -/
theorem startProviders_failure_policy_witness :
    startProvidersContainerless [("java", fun _ => Except.error ("boom"))] =
      StartResult.fatal ∧
    startProvidersContainerless
      [("java", fun _ => Except.ok []),
        ("builtin", fun _ => Except.error ("binit"))] =
      StartResult.err "binit" :=
  ⟨startProviders_failure_policy.1 [("java", fun _ => Except.error ("boom"))]
      "java" (fun _ => Except.error ("boom")) (by simp) (by decide) ⟨"boom", rfl⟩,
    startProviders_failure_policy.2
      [("java", fun _ => Except.ok []), ("builtin", fun _ => Except.error ("binit"))]
      [] (fun _ => Except.error ("binit")) "binit" rfl rfl rfl⟩

/-- C6: in source-only analysis mode no dependency task is started, no
dependency artifact is produced, and the rule-result artifact is still
written (with the stable-sorted engine results). -/
theorem runAnalysis_source_only (mode : String)
    (provs : List (String × Option (List (String × List String))))
    (rs : List RulesetResult) (h : mode = sourceOnlyAnalysisMode) :
    (RunAnalysisContainerless mode provs rs).depTaskStarted = false ∧
    (RunAnalysisContainerless mode provs rs).depsFile = none ∧
    (RunAnalysisContainerless mode provs rs).outputFile =
      some (sortStable rulesetLt rs) := by
  subst h
  have hb : (sourceOnlyAnalysisMode == fullAnalysisMode) = false := by decide
  refine ⟨?_, ?_, ?_⟩ <;> simp [RunAnalysisContainerless, hb]

/-- C6 witness: the statement evaluated at source-only mode with one
ruleset result. -/
theorem runAnalysis_source_only_witness :
    (RunAnalysisContainerless sourceOnlyAnalysisMode [] [⟨"r", ["v"]⟩]).depTaskStarted
      = false ∧
    (RunAnalysisContainerless sourceOnlyAnalysisMode [] [⟨"r", ["v"]⟩]).depsFile
      = none ∧
    (RunAnalysisContainerless sourceOnlyAnalysisMode [] [⟨"r", ["v"]⟩]).outputFile
      = some (sortStable rulesetLt [⟨"r", ["v"]⟩]) :=
  runAnalysis_source_only sourceOnlyAnalysisMode [] [⟨"r", ["v"]⟩] rfl

/-- C9: the rule-result artifact holds exactly the engine results
stable-sorted by ruleset name: the written list is sorted
(pairwise not-greater by name) and a permutation of the engine's list;
moreover, when ruleset names are distinct, any two engine orders of the
same results serialize identically — the output is independent of the
engine's internal execution order. -/
theorem runAnalysis_output_sorted (mode : String)
    (provs : List (String × Option (List (String × List String))))
    (rs rs2 : List RulesetResult) :
    (RunAnalysisContainerless mode provs rs).outputFile =
      some (sortStable rulesetLt rs) ∧
    List.Pairwise (fun a b => ¬ rulesetLt b a) (sortStable rulesetLt rs) ∧
    List.Perm (sortStable rulesetLt rs) rs ∧
    (List.Perm rs rs2 → (rs.map RulesetResult.name).Nodup →
      sortStable rulesetLt rs = sortStable rulesetLt rs2) := by
  refine ⟨rfl, sortStable_pairwise rulesetLt rulesetLt_asymm rulesetLt_shift rs,
    sortStable_perm rulesetLt rs, ?_⟩
  intro hperm hnodup
  haveI : IsAntisymm RulesetResult rulesetLt :=
    ⟨fun a b h1 h2 => absurd h2 (rulesetLt_asymm a b h1)⟩
  have p1 := sortStable_perm rulesetLt rs
  have p2 := sortStable_perm rulesetLt rs2
  have pp : List.Perm (sortStable rulesetLt rs) (sortStable rulesetLt rs2) :=
    p1.trans (hperm.trans p2.symm)
  have hnodup2 : (rs2.map RulesetResult.name).Nodup :=
    ((hperm.map RulesetResult.name).nodup_iff).mp hnodup
  have hstrict : ∀ (l : List RulesetResult), List.Perm l rs ∨ List.Perm l rs2 →
      List.Pairwise (fun a b => ¬ rulesetLt b a) l → List.Pairwise rulesetLt l := by
    intro l hl hle
    have hnd : (l.map RulesetResult.name).Nodup := by
      rcases hl with hl | hl
      · exact ((hl.map RulesetResult.name).nodup_iff).mpr hnodup
      · exact ((hl.map RulesetResult.name).nodup_iff).mpr hnodup2
    have hne : List.Pairwise (fun a b : RulesetResult => a.name ≠ b.name) l :=
      List.pairwise_map.mp hnd
    exact pairwise_combine (fun a b hR hS => strLt_of_ne_of_not_gt hS hR) hle hne
  have hs1 : List.Pairwise rulesetLt (sortStable rulesetLt rs) :=
    hstrict _ (Or.inl p1)
      (sortStable_pairwise rulesetLt rulesetLt_asymm rulesetLt_shift rs)
  have hs2 : List.Pairwise rulesetLt (sortStable rulesetLt rs2) :=
    hstrict _ (Or.inr p2)
      (sortStable_pairwise rulesetLt rulesetLt_asymm rulesetLt_shift rs2)
  exact List.eq_of_perm_of_sorted pp hs1 hs2

/-- C9 witness: two engine orders of the same two distinct-name results
serialize identically, and the artifact equals the sorted list. -/
theorem runAnalysis_output_sorted_witness :
    (RunAnalysisContainerless fullAnalysisMode []
        [⟨"b", ["1"]⟩, ⟨"a", ["2"]⟩]).outputFile =
      some (sortStable rulesetLt [⟨"b", ["1"]⟩, ⟨"a", ["2"]⟩]) ∧
    sortStable rulesetLt [⟨"b", ["1"]⟩, ⟨"a", ["2"]⟩] =
      sortStable rulesetLt [⟨"a", ["2"]⟩, ⟨"b", ["1"]⟩] :=
  ⟨(runAnalysis_output_sorted fullAnalysisMode [] [⟨"b", ["1"]⟩, ⟨"a", ["2"]⟩]
      [⟨"a", ["2"]⟩, ⟨"b", ["1"]⟩]).1,
    (runAnalysis_output_sorted fullAnalysisMode [] [⟨"b", ["1"]⟩, ⟨"a", ["2"]⟩]
      [⟨"a", ["2"]⟩, ⟨"b", ["1"]⟩]).2.2.2 (by decide) (by decide)⟩

/-- C10: when the source file cannot be opened, `copyFileContents`
returns a nil error — the failure is silently swallowed — and the file
system is unchanged, so the destination is never created. -/
theorem copyFileContents_swallows_open_error (fs : String → Option String)
    (createFails : String → Bool) (src dst : String) (h : fs src = none) :
    (copyFileContents fs createFails src dst).1 = none ∧
    (copyFileContents fs createFails src dst).2 = fs := by
  unfold copyFileContents
  rw [h]
  exact ⟨rfl, rfl⟩

/-- C10 witness: the statement evaluated on the empty file system. -/
theorem copyFileContents_swallows_open_error_witness :
    ((fun _ => (none : Option String)) "a" = none) ∧
    (copyFileContents (fun _ => none) (fun _ => false) "a" "b").1 = none ∧
    (copyFileContents (fun _ => none) (fun _ => false) "a" "b").2 =
      (fun _ => none) :=
  ⟨rfl, copyFileContents_swallows_open_error (fun _ => none) (fun _ => false)
    "a" "b" rfl⟩
